import Mathlib

/-!
Shallow embedding of the event / distributed-lock subsystem
(`event/event.go` of the tsuru repository).

Timestamps are modelled as natural numbers (seconds of UTC time),
durations likewise; the two configuration durations of the source
(`lockUpdateInterval = 30 * time.Second`, `lockExpireTimeout = 5 *
time.Minute`) become the naturals 30 and 300.  Opaque BSON object ids
are modelled as naturals.  The mongo collection of `eventData`
documents is modelled as a list of records; `Insert` fails when a
record with the same `_id` is already present, mirroring the unique
primary-key constraint the Go code relies upon.
-/

/-- UTC timestamps and durations, in seconds. -/
abbrev Time := Nat

/-- Source: `lockUpdateInterval = 30 * time.Second`. -/
def lockUpdateInterval : Nat := 30

/-- Source: `lockExpireTimeout = 5 * time.Minute`. -/
def lockExpireTimeout : Nat := 300

/-- Source: `type Target struct{ Name, Value string }`. -/
structure Target where
  name : String
  value : String
deriving DecidableEq

/-- Source: `func (id Target) IsValid() bool { return id.Name != "" && id.Value != "" }`. -/
def Target.IsValid (t : Target) : Bool :=
  t.name ≠ "" && t.value ≠ ""

/-- Source: `type eventId struct { target Target; objId bson.ObjectId }`.
The Go struct is a tagged union in disguise (`GetBSON` serialises the
object id when non-empty, the target otherwise); we model it as a sum. -/
inductive EventId where
  | target : Target → EventId
  | objId : Nat → EventId
deriving DecidableEq

/-- Source: `type cancelInfo struct { Owner string; StartTime, AckTime time.Time; Reason string; Asked, Canceled bool }`. -/
structure CancelInfo where
  owner : String
  startTime : Time
  ackTime : Time
  reason : String
  asked : Bool
  canceled : Bool
deriving DecidableEq

/-- The Go zero value of `cancelInfo`, as produced by `evt :=
Event{eventData: eventData{...}}` in `New` (fields left unset). -/
def CancelInfo.zero : CancelInfo :=
  { owner := "", startTime := 0, ackTime := 0, reason := "", asked := false, canceled := false }

/-- Source: `type eventData struct { ... }` — the persisted document.
`interface{}` custom-data payloads are modelled as `Option String`
(opaque, possibly absent); unset `time.Time` zero values are the
natural number 0. -/
structure EventData where
  id : EventId
  startTime : Time
  endTime : Time
  target : Target
  startCustomData : Option String
  endCustomData : Option String
  kind : String
  owner : String
  cancelable : Bool
  running : Bool
  lockUpdateTime : Time
  error : String
  log : String
  cancelInfo : CancelInfo
deriving DecidableEq

/-- Source: `type Event struct { eventData; logBuffer safe.Buffer; logWriter io.Writer }`.
The in-memory log buffer is a string; the optional external writer has
no store-visible effect and is omitted. -/
structure Event where
  data : EventData
  logBuffer : String
deriving DecidableEq

/-- Source: `type Opts struct { Target Target; Kind *permission.PermissionScheme; Owner string; Cancelable bool; CustomData interface{} }`.
The kind pointer is `Option String` (its `FullName()`). -/
structure Opts where
  target : Target
  kind : Option String
  owner : String
  cancelable : Bool
  customData : Option String
deriving DecidableEq

/-- The mongo `events` collection. -/
abbrev Store := List EventData

/-- The error taxonomy produced by the subsystem (`ErrValidation`,
`ErrEventLocked`, `ErrNotCancelable`, `ErrEventNotFound`, plus the two
mgo errors the code branches on: duplicate-key and not-found). -/
inductive EventError where
  | validation : String → EventError
  | locked : EventData → EventError
  | notCancelable : EventError
  | eventNotFound : EventError
  | duplicateKey : EventError
  | notFound : EventError
deriving DecidableEq

instance {ε α : Type} [DecidableEq ε] [DecidableEq α] : DecidableEq (Except ε α) :=
  fun a b =>
    match a, b with
    | Except.ok x, Except.ok y => decidable_of_iff (x = y) (by simp)
    | Except.error x, Except.error y => decidable_of_iff (x = y) (by simp)
    | Except.ok _, Except.error _ => isFalse (by simp)
    | Except.error _, Except.ok _ => isFalse (by simp)

/-- mgo `coll.FindId(id).One(...)`: the first (unique) document with this id. -/
def findId (s : Store) (i : EventId) : Option EventData :=
  s.find? fun r => decide (r.id = i)

/-- mgo `coll.Insert(doc)`: fails with a duplicate-key error when a
document with the same `_id` exists. -/
def insertRec (s : Store) (r : EventData) : Option Store :=
  if s.any fun q => decide (q.id = r.id) then none else some (s ++ [r])

/-- Whether some document with this id is present. -/
def containsId (s : Store) (i : EventId) : Bool :=
  s.any fun r => decide (r.id = i)

/-- mgo `coll.RemoveId(id)`: removes the (first) document with this id. -/
def removeFirst (s : Store) (i : EventId) : Store :=
  match s with
  | [] => []
  | r :: rest => if r.id = i then rest else r :: removeFirst rest i

/-- mgo `query.Apply` / `coll.Update`: updates the first document
matched by the selector `p`. -/
def updateFirst (s : Store) (p : EventData → Bool) (f : EventData → EventData) : Store :=
  match s with
  | [] => []
  | r :: rest => if p r then f r :: rest else r :: updateFirst rest p f

/-- Number of documents with the given id. -/
def countId (s : Store) (i : EventId) : Nat :=
  s.countP fun r => decide (r.id = i)

/-!  ## `done` (the history projector, `func (e *Event) done`)  -/

/-- The in-memory mutation `done` performs on `e.eventData` before the
insert (non-abort path): sets `Error`, `EndTime`, `EndCustomData`,
`Running`, `Log`, and finally re-keys the record with the fresh object
id (`e.ID = eventId{objId: bson.NewObjectId()}`). -/
def doneData (e : Event) (evtErr : Option String) (customData : Option String)
    (now : Time) (freshId : Nat) : EventData :=
  let d := e.data
  let err :=
    match evtErr with
    | some m => m
    | none => if d.cancelInfo.canceled then "canceled by user request" else d.error
  { d with
    error := err
    endTime := now
    endCustomData := customData
    running := false
    log := e.logBuffer
    id := EventId.objId freshId }

structure DoneResult where
  /-- The store after each successive store mutation performed by the
  call, in execution order (each element is a store-visible state). -/
  states : List Store
  result : Except EventError Unit
  /-- The handle (`e`) after the call, with its in-place mutations. -/
  event : Event
  store : Store
deriving DecidableEq

/-- Source: `func (e *Event) done(evtErr error, customData interface{}, abort bool) error`.

Control flow of the source, in order: signal the lock updater
(`removeCh`, no store effect), then
  * abort: `return coll.RemoveId(e.ID)`;
  * otherwise mutate `e` in memory (`doneData`), then execute
    `coll.Insert(e.eventData)` and — via the deferred
    `coll.RemoveId(e.ID)` whose argument was evaluated *before* `e.ID`
    was re-keyed — remove the old id *after* the insert.  The deferred
    remove runs whether or not the insert succeeded, and its error is
    discarded; the function returns the insert's error. -/
def done (e : Event) (evtErr : Option String) (customData : Option String)
    (abort : Bool) (now : Time) (freshId : Nat) (s : Store) : DoneResult :=
  if abort then
    let found := containsId s e.data.id
    let s' := removeFirst s e.data.id
    { states := [s'],
      result := if found then Except.ok () else Except.error EventError.notFound,
      event := e, store := s' }
  else
    let d := doneData e evtErr customData now freshId
    match insertRec s d with
    | some s1 =>
        let s2 := removeFirst s1 e.data.id
        { states := [s1, s2], result := Except.ok (),
          event := { e with data := d }, store := s2 }
    | none =>
        let s2 := removeFirst s e.data.id
        { states := [s2], result := Except.error EventError.duplicateKey,
          event := { e with data := d }, store := s2 }

/-- Source: `e.Abort()` = `e.done(nil, nil, true)`. -/
def Event.Abort (e : Event) (now : Time) (freshId : Nat) (s : Store) : DoneResult :=
  done e none none true now freshId s

/-- Source: `e.Done(evtErr)` = `e.done(evtErr, nil, false)`. -/
def Event.Done (e : Event) (evtErr : Option String) (now : Time) (freshId : Nat)
    (s : Store) : DoneResult :=
  done e evtErr none false now freshId s

/-- Source: `e.DoneCustomData(evtErr, customData)` = `e.done(evtErr, customData, false)`. -/
def Event.DoneCustomData (e : Event) (evtErr : Option String) (customData : Option String)
    (now : Time) (freshId : Nat) (s : Store) : DoneResult :=
  done e evtErr customData false now freshId s

/-!  ## `checkIsExpired` and the acquisition loop of `New`  -/

/-- The message of `fmt.Errorf("event expired, no update for %v", time.Since(lastUpdate))`. -/
def expiredMsg (delta : Nat) : String :=
  "event expired, no update for " ++ toString delta

structure CheckExpiredResult where
  expired : Bool
  store : Store
deriving DecidableEq

/-- Source: `func checkIsExpired(coll *storage.Collection, id interface{}) bool`.
Reads the existing record; when `now.After(lastUpdate.Add(lockExpireTimeout))`
it terminates the stale record through `Done` (whose result is
discarded) and reports true. -/
def checkIsExpired (s : Store) (i : EventId) (now : Time) (freshId : Nat) :
    CheckExpiredResult :=
  match findId s i with
  | some existing =>
      if existing.lockUpdateTime + lockExpireTimeout < now then
        let r := Event.Done { data := existing, logBuffer := "" }
          (some (expiredMsg (now - existing.lockUpdateTime))) now freshId s
        { expired := true, store := r.store }
      else
        { expired := false, store := s }
  | none => { expired := false, store := s }

/-- Source: `maxRetries := 1` in `New`. -/
def maxRetries : Nat := 1

structure NewLoopResult where
  result : Except EventError Event
  store : Store
  /-- How many `coll.Insert` attempts the loop performed. -/
  inserts : Nat
deriving DecidableEq

/-- The `for i := 0; i < maxRetries+1; i++` loop of `New`, indexed by
the number `k` of iterations remaining (the loop starts with
`k = maxRetries + 1`, so the Go condition `i >= maxRetries` is `k ≤ 1`,
i.e. `k = 0` after the pattern split).

Each iteration: attempt the insert; on success register the target
with the updater and return the event.  On a duplicate key, when this
is the last permitted iteration (`i >= maxRetries`, short-circuiting
past `checkIsExpired`) or the existing record is not expired, reload
the existing record and set `err` to `ErrEventLocked{existing}` (or to
the reload's not-found error); when the record was expired,
`checkIsExpired` has already terminated it and `err` keeps the
duplicate-key error.  In every non-returning case the loop simply
continues — the source has no `break`. -/
def newLoop (ev : EventData) (now : Time) (freshId : Nat) :
    Nat → Store → EventError → NewLoopResult
  | 0, s, lastErr => { result := Except.error lastErr, store := s, inserts := 0 }
  | k + 1, s, lastErr =>
      match insertRec s ev with
      | some s' => { result := Except.ok { data := ev, logBuffer := "" }, store := s', inserts := 1 }
      | none =>
          if k = 0 then
            let err :=
              match findId s ev.id with
              | some existing => EventError.locked existing
              | none => EventError.notFound
            let rest := newLoop ev now freshId k s err
            { result := rest.result, store := rest.store, inserts := rest.inserts + 1 }
          else
            let c := checkIsExpired s ev.id now freshId
            if c.expired then
              let rest := newLoop ev now freshId k c.store lastErr
              { result := rest.result, store := rest.store, inserts := rest.inserts + 1 }
            else
              let err :=
                match findId s ev.id with
                | some existing => EventError.locked existing
                | none => EventError.notFound
              let rest := newLoop ev now freshId k s err
              { result := rest.result, store := rest.store, inserts := rest.inserts + 1 }

structure NewResult where
  result : Except EventError Event
  store : Store
  /-- Whether the lock-updater singleton has been started after the call. -/
  started : Bool
  /-- Whether this very call spawned the updater goroutine
  (`sync.Once` fires only on the first call). -/
  spawned : Bool
  inserts : Nat
deriving DecidableEq

/-- The candidate record `New` builds: `id = target`, `running = true`,
`startTime = lockUpdateTime = now`, remaining fields from `opts`,
everything else the Go zero value. -/
def candidateData (o : Opts) (kindName : String) (now : Time) : EventData :=
  { id := EventId.target o.target
    startTime := now
    endTime := 0
    target := o.target
    startCustomData := o.customData
    endCustomData := none
    kind := kindName
    owner := o.owner
    cancelable := o.cancelable
    running := true
    lockUpdateTime := now
    error := ""
    log := ""
    cancelInfo := CancelInfo.zero }

/-- Source: `func New(opts *Opts) (*Event, error)`.

The very first statement is `updater.start()` — before any validation —
so the background worker is started (once) on every call.  Then the
nil/validity checks run in source order (`opts`, `target`, `kind`,
`owner`), each returning its `ErrValidation` without touching the
store; finally the candidate record is built and the two-attempt
insert loop runs. -/
def New (opts : Option Opts) (now : Time) (freshId : Nat) (s : Store)
    (started : Bool) : NewResult :=
  let spawned := !started
  match opts with
  | none =>
      { result := Except.error (EventError.validation "event opts is mandatory"),
        store := s, started := true, spawned := spawned, inserts := 0 }
  | some o =>
      if o.target.IsValid then
        match o.kind with
        | none =>
            { result := Except.error (EventError.validation "event kind is mandatory"),
              store := s, started := true, spawned := spawned, inserts := 0 }
        | some kindName =>
            if o.owner = "" then
              { result := Except.error (EventError.validation "event owner is mandatory"),
                store := s, started := true, spawned := spawned, inserts := 0 }
            else
              let ev := candidateData o kindName now
              let r := newLoop ev now freshId (maxRetries + 1) s EventError.duplicateKey
              { result := r.result, store := r.store, started := true,
                spawned := spawned, inserts := r.inserts }
      else
        { result := Except.error (EventError.validation "event target is mandatory"),
          store := s, started := true, spawned := spawned, inserts := 0 }

/-!  ## Cancellation (`TryCancel`, `AckCancel`)  -/

structure CancelResult where
  result : Except EventError Unit
  event : Event
  store : Store
deriving DecidableEq

/-- Source: `func (e *Event) TryCancel(reason, owner string) error`.
Precondition on the in-memory handle: `Cancelable && Running`, else
`ErrNotCancelable`.  Then an atomic `FindId(e.ID).Apply` replacing the
whole `cancelinfo` sub-document with
`{Owner: owner, Reason: reason, StartTime: now, Asked: true}` (the
remaining fields are Go zero values) and reloading the new document
into the handle; `mgo.ErrNotFound` becomes `ErrEventNotFound`. -/
def TryCancel (e : Event) (reason owner : String) (now : Time) (s : Store) :
    CancelResult :=
  if !e.data.cancelable || !e.data.running then
    { result := Except.error EventError.notCancelable, event := e, store := s }
  else
    let newInfo : CancelInfo :=
      { owner := owner, reason := reason, startTime := now,
        ackTime := 0, asked := true, canceled := false }
    match findId s e.data.id with
    | some r =>
        { result := Except.ok (),
          event := { e with data := { r with cancelInfo := newInfo } },
          store := updateFirst s (fun q => decide (q.id = e.data.id))
            (fun q => { q with cancelInfo := newInfo }) }
    | none =>
        { result := Except.error EventError.eventNotFound, event := e, store := s }

/-- The `$set` of `AckCancel`: `cancelinfo.acktime = now, cancelinfo.canceled = true`. -/
def ackSet (now : Time) (q : EventData) : EventData :=
  { q with cancelInfo := { q.cancelInfo with ackTime := now, canceled := true } }

/-- The selector of `AckCancel`: `{_id: e.ID, "cancelinfo.asked": true}`. -/
def ackSelector (e : Event) (q : EventData) : Bool :=
  decide (q.id = e.data.id) && q.cancelInfo.asked

/-- Source: `func (e *Event) AckCancel() error`.
Precondition on the handle: `Cancelable && Running`, else
`ErrNotCancelable`.  Then an atomic `Apply` on the selector
`{_id = e.ID, cancelinfo.asked = true}` setting
`cancelinfo.acktime = now, cancelinfo.canceled = true`, reloading the
new document; `mgo.ErrNotFound` becomes `ErrEventNotFound`. -/
def AckCancel (e : Event) (now : Time) (s : Store) : CancelResult :=
  if !e.data.cancelable || !e.data.running then
    { result := Except.error EventError.notCancelable, event := e, store := s }
  else
    match s.find? (ackSelector e) with
    | some r =>
        { result := Except.ok (),
          event := { e with data := ackSet now r },
          store := updateFirst s (ackSelector e) (ackSet now) }
    | none =>
        { result := Except.error EventError.eventNotFound, event := e, store := s }

/-!  ## `All`  -/

/-- BSON total order on `_id` values as mongo compares them: documents
(`Target` serialises as `{name, value}`, compared field by field) sort
before ObjectIds, ObjectIds compare by value. -/
def EventId.le : EventId → EventId → Prop
  | EventId.target a, EventId.target b =>
      a.name < b.name ∨ (a.name = b.name ∧ a.value ≤ b.value)
  | EventId.target _, EventId.objId _ => True
  | EventId.objId _, EventId.target _ => False
  | EventId.objId a, EventId.objId b => a ≤ b

instance : DecidableRel EventId.le := fun a b =>
  match a, b with
  | EventId.target _, EventId.target _ => inferInstanceAs (Decidable (_ ∨ _))
  | EventId.target _, EventId.objId _ => inferInstanceAs (Decidable True)
  | EventId.objId _, EventId.target _ => inferInstanceAs (Decidable False)
  | EventId.objId _, EventId.objId _ => inferInstanceAs (Decidable (_ ≤ _))

/-- The sort key of `Find(nil).Sort("-_id")`: descending `_id`. -/
def idDesc (a b : EventData) : Prop := EventId.le b.id a.id

instance : DecidableRel idDesc := fun a b =>
  inferInstanceAs (Decidable (EventId.le b.id a.id))

/-- Source: `func All() ([]Event, error)` — `Find(nil).Sort("-_id").All(...)`:
every document of the collection, sorted by descending `_id`. -/
def All (s : Store) : List EventData :=
  List.insertionSort idDesc s

/-!  ## Basic lemmas about the store operations  -/

theorem mem_of_mem_removeFirst {i : EventId} {r : EventData} :
    ∀ {s : Store}, r ∈ removeFirst s i → r ∈ s
  | [], h => by simp [removeFirst] at h
  | a :: rest, h => by
      by_cases ha : a.id = i
      · rw [removeFirst, if_pos ha] at h
        exact List.mem_cons_of_mem _ h
      · rw [removeFirst, if_neg ha] at h
        rcases List.mem_cons.mp h with h | h
        · exact h ▸ List.mem_cons_self _ _
        · exact List.mem_cons_of_mem _ (mem_of_mem_removeFirst h)

theorem mem_removeFirst_of_ne {i : EventId} {r : EventData} :
    ∀ {s : Store}, r ∈ s → r.id ≠ i → r ∈ removeFirst s i
  | [], h, _ => absurd h (List.not_mem_nil _)
  | a :: rest, h, hne => by
      by_cases ha : a.id = i
      · rw [removeFirst, if_pos ha]
        rcases List.mem_cons.mp h with rfl | h
        · exact absurd ha hne
        · exact h
      · rw [removeFirst, if_neg ha]
        rcases List.mem_cons.mp h with rfl | h
        · exact List.mem_cons_self _ _
        · exact List.mem_cons_of_mem _ (mem_removeFirst_of_ne h hne)

theorem countId_removeFirst (i : EventId) :
    ∀ s : Store, countId (removeFirst s i) i = countId s i - 1
  | [] => by simp [countId, removeFirst]
  | a :: rest => by
      have ih := countId_removeFirst i rest
      unfold countId at ih ⊢
      by_cases ha : a.id = i
      · rw [removeFirst, if_pos ha]
        simp [List.countP_cons, ha]
      · rw [removeFirst, if_neg ha]
        simp only [List.countP_cons, ha]
        simp only [decide_eq_true_eq]
        simp [ha, ih]

theorem countId_append (s₁ s₂ : Store) (i : EventId) :
    countId (s₁ ++ s₂) i = countId s₁ i + countId s₂ i :=
  List.countP_append _ _ _

theorem countId_singleton_ne {d : EventData} {i : EventId} (h : d.id ≠ i) :
    countId [d] i = 0 := by
  simp [countId, List.countP_cons, h]

theorem countId_eq_zero_iff {s : Store} {i : EventId} :
    countId s i = 0 ↔ containsId s i = false := by
  unfold countId containsId
  rw [List.countP_eq_zero]
  constructor
  · intro h
    rw [← Bool.not_eq_true, List.any_eq_true]
    rintro ⟨x, hx, hpx⟩
    exact h x hx hpx
  · intro h x hx hpx
    have : (s.any fun r => decide (r.id = i)) = true := List.any_eq_true.mpr ⟨x, hx, hpx⟩
    rw [h] at this
    exact Bool.false_ne_true this

theorem insertRec_eq (s : Store) (r : EventData) :
    insertRec s r = if containsId s r.id then none else some (s ++ [r]) := rfl

theorem containsId_of_findId {s : Store} {i : EventId} {ex : EventData}
    (h : findId s i = some ex) : containsId s i = true := by
  unfold findId at h
  unfold containsId
  have hp := List.find?_some h
  have hm := List.mem_of_find?_eq_some h
  exact List.any_eq_true.mpr ⟨ex, hm, hp⟩

theorem id_of_findId {s : Store} {i : EventId} {ex : EventData}
    (h : findId s i = some ex) : ex.id = i := by
  unfold findId at h
  have hp := List.find?_some h
  exact of_decide_eq_true hp

theorem mem_of_findId {s : Store} {i : EventId} {ex : EventData}
    (h : findId s i = some ex) : ex ∈ s := by
  unfold findId at h
  exact List.mem_of_find?_eq_some h

theorem mem_updateFirst {p : EventData → Bool} {f : EventData → EventData} {r : EventData} :
    ∀ {s : Store}, r ∈ updateFirst s p f → r ∈ s ∨ ∃ q ∈ s, p q = true ∧ r = f q
  | [], h => by simp [updateFirst] at h
  | a :: rest, h => by
      by_cases ha : p a
      · rw [updateFirst, if_pos ha] at h
        rcases List.mem_cons.mp h with rfl | h
        · exact Or.inr ⟨a, List.mem_cons_self _ _, ha, rfl⟩
        · exact Or.inl (List.mem_cons_of_mem _ h)
      · rw [updateFirst, if_neg ha] at h
        rcases List.mem_cons.mp h with rfl | h
        · exact Or.inl (List.mem_cons_self _ _)
        · rcases mem_updateFirst h with h | ⟨q, hq, hpq, hr⟩
          · exact Or.inl (List.mem_cons_of_mem _ h)
          · exact Or.inr ⟨q, List.mem_cons_of_mem _ hq, hpq, hr⟩

/-!  ## C4: the acquisition loop performs at most two insert attempts  -/

theorem newLoop_inserts_le (ev : EventData) (now : Time) (freshId : Nat) (k : Nat) :
    ∀ (s : Store) (err : EventError), (newLoop ev now freshId k s err).inserts ≤ k := by
  induction k with
  | zero => intro s err; simp [newLoop]
  | succ k ih =>
      intro s err
      rw [newLoop]
      cases hins : insertRec s ev with
      | some s' => simp
      | none =>
          simp only
          by_cases hk : k = 0
          · subst hk
            simp [newLoop]
          · simp only [if_neg hk]
            by_cases hexp : (checkIsExpired s ev.id now freshId).expired
            · simp only [if_pos hexp]
              have h := ih (checkIsExpired s ev.id now freshId).store err
              show (newLoop ev now freshId k (checkIsExpired s ev.id now freshId).store err).inserts + 1 ≤ k + 1
              omega
            · simp only [if_neg hexp]
              have h := ih s (match findId s ev.id with
                | some existing => EventError.locked existing
                | none => EventError.notFound)
              show (newLoop ev now freshId k s (match findId s ev.id with
                | some existing => EventError.locked existing
                | none => EventError.notFound)).inserts + 1 ≤ k + 1
              omega

/-- C4: for every execution of `New(opts)`, the acquisition loop performs at
most two insert attempts before returning (success, Locked, or a store
error); it never retries unboundedly. -/
theorem C4_two_attempt_ceiling (opts : Option Opts) (now : Time) (freshId : Nat)
    (s : Store) (started : Bool) : (New opts now freshId s started).inserts ≤ 2 := by
  cases opts with
  | none => simp [New]
  | some o =>
      rw [New]
      by_cases hv : o.target.IsValid
      · simp only [if_pos hv]
        cases hk : o.kind with
        | none => simp
        | some kd =>
            by_cases ho : o.owner = ""
            · simp [ho]
            · simp only [if_neg ho]
              exact newLoop_inserts_le _ _ _ _ _ _
      · simp [if_neg hv]

/-!  ## C9: when the lock-updater singleton is started  -/

/-- Fixture: opts with an invalid (empty-name) target. -/
def btOpts : Opts :=
  { target := { name := "", value := "a" }, kind := some "app.update",
    owner := "u", cancelable := false, customData := none }

/-- Fixture: valid target but nil kind. -/
def bkOpts : Opts :=
  { target := { name := "app", value := "a" }, kind := none,
    owner := "u", cancelable := false, customData := none }

/-- Fixture: valid target and kind but empty owner. -/
def boOpts : Opts :=
  { target := { name := "app", value := "a" }, kind := some "app.update",
    owner := "", cancelable := false, customData := none }

/-- C9 counterexample: the claim says the lease-renewer singleton is never
started unless some call to `New` has succeeded; but `updater.start()` is the
first statement of `New`, so a single call `New(nil)` — which fails
validation and returns no handle — leaves the worker started. -/
theorem C9_counterexample :
    (New none 0 0 [] false).result
        = Except.error (EventError.validation "event opts is mandatory")
    ∧ (New none 0 0 [] false).started = true :=
  ⟨rfl, rfl⟩

/-- C9 (amended): the lease-renewer singleton is started lazily on the first
call to `New` — successful or not — and exactly once: after any call the
worker is started, and the call spawns the worker precisely when it was not
already started (`sync.Once`). -/
theorem C9_started_on_first_call (opts : Option Opts) (now : Time) (freshId : Nat)
    (s : Store) (b : Bool) :
    (New opts now freshId s b).started = true
    ∧ (New opts now freshId s b).spawned = !b := by
  cases opts with
  | none => exact ⟨rfl, rfl⟩
  | some o =>
      rw [New]
      by_cases hv : o.target.IsValid
      · simp only [if_pos hv]
        cases o.kind with
        | none => exact ⟨rfl, rfl⟩
        | some kd =>
            by_cases ho : o.owner = ""
            · simp [ho]
            · simp [ho]
      · simp [if_neg hv]

/-!  ## C5: validation errors of `New`  -/

/-- C5 counterexample: the claim names the message "target required", but the
code's validation error for an invalid target is `ErrNoTarget =
ErrValidation("event target is mandatory")`. -/
theorem C5_counterexample :
    (New (some btOpts) 0 0 [] false).result
        = Except.error (EventError.validation "event target is mandatory")
    ∧ (New (some btOpts) 0 0 [] false).result
        ≠ Except.error (EventError.validation "target required") :=
  ⟨rfl, by decide⟩

/-- C5 (amended): `New` validates before touching the store and returns, for
each failing precondition, the corresponding error — nil opts yields
ValidationError "event opts is mandatory", an invalid target yields
ValidationError "event target is mandatory", a nil kind yields
ValidationError "event kind is mandatory", an empty owner yields
ValidationError "event owner is mandatory" — and in each case the store is
unchanged and no insert is attempted. -/
theorem C5_validation_errors (now : Time) (freshId : Nat) (s : Store) (b : Bool)
    (o1 o2 o3 : Opts) (kd : String) :
    ((New none now freshId s b).result
        = Except.error (EventError.validation "event opts is mandatory")
      ∧ (New none now freshId s b).store = s
      ∧ (New none now freshId s b).inserts = 0)
    ∧ (o1.target.IsValid = false →
        (New (some o1) now freshId s b).result
            = Except.error (EventError.validation "event target is mandatory")
        ∧ (New (some o1) now freshId s b).store = s
        ∧ (New (some o1) now freshId s b).inserts = 0)
    ∧ (o2.target.IsValid = true → o2.kind = none →
        (New (some o2) now freshId s b).result
            = Except.error (EventError.validation "event kind is mandatory")
        ∧ (New (some o2) now freshId s b).store = s
        ∧ (New (some o2) now freshId s b).inserts = 0)
    ∧ (o3.target.IsValid = true → o3.kind = some kd → o3.owner = "" →
        (New (some o3) now freshId s b).result
            = Except.error (EventError.validation "event owner is mandatory")
        ∧ (New (some o3) now freshId s b).store = s
        ∧ (New (some o3) now freshId s b).inserts = 0) := by
  refine ⟨⟨rfl, rfl, rfl⟩, ?_, ?_, ?_⟩
  · intro h1
    simp [New, h1]
  · intro h2 hk
    simp [New, h2, hk]
  · intro h3 hk ho
    simp [New, h3, hk, ho]

theorem C5_validation_errors_witness :
    (btOpts.target.IsValid = false)
    ∧ ((New (some btOpts) 0 0 [] false).result
        = Except.error (EventError.validation "event target is mandatory"))
    ∧ ((New (some bkOpts) 0 0 [] false).result
        = Except.error (EventError.validation "event kind is mandatory"))
    ∧ ((New (some boOpts) 0 0 [] false).result
        = Except.error (EventError.validation "event owner is mandatory"))
    ∧ ((New none 0 0 ([] : Store) false).store = ([] : Store)) :=
  have h := C5_validation_errors 0 0 [] false btOpts bkOpts boOpts "app.update"
  ⟨by decide, (h.2.1 (by decide)).1, (h.2.2.1 (by decide) rfl).1,
    (h.2.2.2 (by decide) rfl rfl).1, h.1.2.1⟩

/-!  ## C8: what order `All` returns  -/

theorem EventId.le_total_pair : ∀ a b : EventId, EventId.le a b ∨ EventId.le b a := by
  intro a b
  cases a with
  | target ta =>
      cases b with
      | target tb =>
          rcases lt_trichotomy ta.name tb.name with h | h | h
          · exact Or.inl (Or.inl h)
          · rcases le_total ta.value tb.value with hv | hv
            · exact Or.inl (Or.inr ⟨h, hv⟩)
            · exact Or.inr (Or.inr ⟨h.symm, hv⟩)
          · exact Or.inr (Or.inl h)
      | objId n => exact Or.inl trivial
  | objId m =>
      cases b with
      | target tb => exact Or.inr trivial
      | objId n => exact le_total m n

theorem EventId.le_trans_pair :
    ∀ a b c : EventId, EventId.le a b → EventId.le b c → EventId.le a c := by
  intro a b c hab hbc
  cases a with
  | target ta =>
      cases b with
      | target tb =>
          cases c with
          | target tc =>
              rcases hab with h1 | ⟨h1, h1v⟩
              · rcases hbc with h2 | ⟨h2, h2v⟩
                · exact Or.inl (lt_trans h1 h2)
                · exact Or.inl (h2 ▸ h1)
              · rcases hbc with h2 | ⟨h2, h2v⟩
                · exact Or.inl (h1 ▸ h2)
                · exact Or.inr ⟨h1.trans h2, le_trans h1v h2v⟩
          | objId n => exact trivial
      | objId n =>
          cases c with
          | target tc => exact hbc.elim
          | objId m => exact trivial
  | objId ma =>
      cases b with
      | target tb => exact hab.elim
      | objId mb =>
          cases c with
          | target tc => exact hbc.elim
          | objId mc => exact le_trans hab hbc

instance : IsTotal EventData idDesc :=
  ⟨fun a b => EventId.le_total_pair b.id a.id⟩

instance : IsTrans EventData idDesc :=
  ⟨fun a b c hab hbc => EventId.le_trans_pair c.id b.id a.id hbc hab⟩

/-- Fixture: a historical record whose opaque id (100) was generated at its
late end time, while its start time (0) is early. -/
def histA : EventData :=
  { id := EventId.objId 100, startTime := 0, endTime := 90,
    target := { name := "app", value := "a" }, startCustomData := none,
    endCustomData := none, kind := "app.update", owner := "u",
    cancelable := false, running := false, lockUpdateTime := 0,
    error := "", log := "", cancelInfo := CancelInfo.zero }

/-- Fixture: a historical record that started later (50) but ended — and got
its opaque id (60) — earlier. -/
def histB : EventData :=
  { histA with id := EventId.objId 60, startTime := 50, endTime := 60 }

/-- C8 counterexample: `All` sorts by descending `_id`, not by start time:
on a store holding `histA` (start 0, id 100) and `histB` (start 50, id 60)
it returns start times `[0, 50]`, which is not newest-first. -/
theorem C8_counterexample :
    ((All [histA, histB]).map EventData.startTime = [0, 50])
    ∧ ¬ List.Sorted (fun a b : EventData => b.startTime ≤ a.startTime)
        (All [histA, histB]) := by
  constructor
  · rfl
  · decide

/-- C8 (amended): `All()` returns every record in the store — historical and
running — sorted in descending order of record id (the BSON `_id`), which
reflects id-creation order for historical records, not start time. -/
theorem C8_all_sorted_by_id (s : Store) :
    (All s).Perm s ∧ List.Sorted idDesc (All s) :=
  ⟨List.perm_insertionSort idDesc s, List.sorted_insertionSort idDesc s⟩

/-!  ## C1: duplicate key while the holder's lease is alive  -/

/-- Unfolding of `New` once validation has passed: the result is that of the
two-attempt insert loop on the candidate record. -/
theorem New_valid_eq (o : Opts) (kd : String) (now : Time) (freshId : Nat)
    (s : Store) (b : Bool)
    (hv : o.target.IsValid = true) (hk : o.kind = some kd) (ho : o.owner ≠ "") :
    New (some o) now freshId s b =
      { result := (newLoop (candidateData o kd now) now freshId (maxRetries + 1) s
          EventError.duplicateKey).result,
        store := (newLoop (candidateData o kd now) now freshId (maxRetries + 1) s
          EventError.duplicateKey).store,
        started := true, spawned := !b,
        inserts := (newLoop (candidateData o kd now) now freshId (maxRetries + 1) s
          EventError.duplicateKey).inserts } := by
  rw [New, if_pos hv, hk]
  simp only [if_neg ho]

/-- Both attempts hit a duplicate key on a non-expired holder: the loop
returns `Locked(existing)` and leaves the store unchanged. -/
theorem newLoop_locked (ev ex : EventData) (now : Time) (freshId : Nat)
    (s : Store) (err₀ : EventError)
    (hin : insertRec s ev = none)
    (hce : checkIsExpired s ev.id now freshId = { expired := false, store := s })
    (hex : findId s ev.id = some ex) :
    newLoop ev now freshId 2 s err₀ =
      { result := Except.error (EventError.locked ex), store := s, inserts := 2 } := by
  rw [newLoop]
  simp only [hin, hce, hex]
  rw [newLoop]
  simp only [hin, hex]
  simp [newLoop]

/-- C1: for every call to `New(opts)` whose insert fails with a duplicate
key while the existing running record for the same target is not expired
(`now ≤ lockUpdateTime + expiry`), `New` returns a Locked error carrying
the conflicting existing record, and the store is left unchanged. -/
theorem C1_locked_not_expired (o : Opts) (kd : String) (now : Time) (freshId : Nat)
    (s : Store) (b : Bool) (ex : EventData)
    (hv : o.target.IsValid = true) (hk : o.kind = some kd) (ho : o.owner ≠ "")
    (hex : findId s (EventId.target o.target) = some ex)
    (hlive : now ≤ ex.lockUpdateTime + lockExpireTimeout) :
    (New (some o) now freshId s b).result = Except.error (EventError.locked ex)
    ∧ (New (some o) now freshId s b).store = s := by
  have hid : (candidateData o kd now).id = EventId.target o.target := rfl
  have hin : insertRec s (candidateData o kd now) = none := by
    rw [insertRec_eq, hid, containsId_of_findId hex]
    rfl
  have hce : checkIsExpired s (EventId.target o.target) now freshId
      = { expired := false, store := s } := by
    unfold checkIsExpired
    simp only [hex]
    rw [if_neg (Nat.not_lt.mpr hlive)]
  rw [New_valid_eq o kd now freshId s b hv hk ho]
  rw [show maxRetries + 1 = 2 from rfl]
  rw [newLoop_locked (candidateData o kd now) ex now freshId s EventError.duplicateKey
    hin (hid ▸ hce) (hid ▸ hex)]
  exact ⟨rfl, rfl⟩

/-- Fixture: a concrete valid target and opts. -/
def tgtA : Target := { name := "app", value := "a" }

def optsA : Opts :=
  { target := tgtA, kind := some "app.update", owner := "u",
    cancelable := true, customData := none }

/-- Fixture: the running record created by `New optsA` at time 10. -/
def runA : EventData := candidateData optsA "app.update" 10

theorem C1_locked_not_expired_witness :
    ((New (some optsA) 20 100 [runA] true).result
        = Except.error (EventError.locked runA))
    ∧ ((New (some optsA) 20 100 [runA] true).store = [runA]) :=
  C1_locked_not_expired optsA "app.update" 20 100 [runA] true runA
    (by decide) rfl (by decide) (by decide) (by decide)

/-!  ## C2: the order of the remove and the insert in `done`  -/

/-- Fixture: the live handle for `runA`. -/
def handleA : Event := { data := runA, logBuffer := "" }

/-- C2 counterexample: the claim says a non-aborted `done` first removes the
running record and only afterwards inserts the historical record.  In the
source the remove is a deferred `coll.RemoveId` that runs *after*
`coll.Insert`, so the first store-visible state of the concrete execution
below contains the historical record (id `objId 7`) while the running
record (id `target tgtA`) is still present. -/
theorem C2_counterexample :
    ¬ (∀ st ∈ (done handleA none none false 50 7 [runA]).states,
        containsId st (EventId.objId 7) = true →
          containsId st (EventId.target tgtA) = false) := by
  decide

/-- C2 (amended): a non-aborted `done` inserts the historical record under a
fresh opaque id first and removes the running record keyed by the target
afterwards; the fresh id still guarantees that at every store-visible state
at most one record with `id = target` exists (I1), and afterwards none does. -/
theorem C2_insert_then_remove (e : Event) (t : Target)
    (evtErr customData : Option String) (now : Time) (freshId : Nat) (s : Store)
    (hid : e.data.id = EventId.target t)
    (hfresh : containsId s (EventId.objId freshId) = false)
    (huni : countId s (EventId.target t) ≤ 1) :
    (done e evtErr customData false now freshId s).states
      = [s ++ [doneData e evtErr customData now freshId],
         removeFirst (s ++ [doneData e evtErr customData now freshId]) (EventId.target t)]
    ∧ (∀ st ∈ (done e evtErr customData false now freshId s).states,
        countId st (EventId.target t) ≤ 1)
    ∧ countId (done e evtErr customData false now freshId s).store (EventId.target t) = 0 := by
  have hdid : (doneData e evtErr customData now freshId).id = EventId.objId freshId := rfl
  have hin : insertRec s (doneData e evtErr customData now freshId)
      = some (s ++ [doneData e evtErr customData now freshId]) := by
    rw [insertRec_eq, hdid, hfresh]
    rfl
  have hD : done e evtErr customData false now freshId s =
      { states := [s ++ [doneData e evtErr customData now freshId],
          removeFirst (s ++ [doneData e evtErr customData now freshId]) e.data.id],
        result := Except.ok (),
        event := { e with data := doneData e evtErr customData now freshId },
        store := removeFirst (s ++ [doneData e evtErr customData now freshId]) e.data.id } := by
    unfold done
    simp [hin]
  have hdne : (doneData e evtErr customData now freshId).id ≠ EventId.target t := by
    rw [hdid]
    exact fun h => EventId.noConfusion h
  have h1 : countId (s ++ [doneData e evtErr customData now freshId]) (EventId.target t)
      = countId s (EventId.target t) := by
    rw [countId_append, countId_singleton_ne hdne]
    omega
  have h2 := countId_removeFirst (EventId.target t)
    (s ++ [doneData e evtErr customData now freshId])
  refine ⟨by rw [hD, hid], ?_, ?_⟩
  · intro st hst
    rw [hD] at hst
    simp only [List.mem_cons, List.not_mem_nil, or_false] at hst
    rcases hst with rfl | rfl
    · omega
    · rw [hid]
      omega
  · rw [hD]
    simp only [hid]
    omega

theorem C2_insert_then_remove_witness :
    ((done handleA none none false 50 7 [runA]).states
      = [[runA, doneData handleA none none 50 7],
         removeFirst [runA, doneData handleA none none 50 7] (EventId.target tgtA)])
    ∧ (∀ st ∈ (done handleA none none false 50 7 [runA]).states,
        countId st (EventId.target tgtA) ≤ 1)
    ∧ countId (done handleA none none false 50 7 [runA]).store (EventId.target tgtA) = 0 :=
  C2_insert_then_remove handleA tgtA none none 50 7 [runA] rfl (by decide) (by decide)

/-!  ## C7: terminal fields written by a non-aborted `done`  -/

/-- The handle after any non-aborted `done` carries the terminal record. -/
theorem done_event_eq (e : Event) (evtErr customData : Option String)
    (now : Time) (freshId : Nat) (s : Store) :
    (done e evtErr customData false now freshId s).event
      = { e with data := doneData e evtErr customData now freshId } := by
  unfold done
  cases hin : insertRec s (doneData e evtErr customData now freshId) <;> simp [hin]

/-- C7: for every non-aborted termination, the resulting historical record
has error equal to the given error's message when present, otherwise
"canceled by user request" when `cancelInfo.canceled`, otherwise empty; and
`endTime = now`, `endCustomData = customData`, `running = false`, and `log`
equal to the buffered in-memory log.  When the fresh id does not collide,
that record is inserted into the store and the call succeeds. -/
theorem C7_done_terminal_fields (e : Event) (evtErr customData : Option String)
    (now : Time) (freshId : Nat) (s : Store)
    (herr : e.data.error = "") :
    ((done e evtErr customData false now freshId s).event.data.error
      = match evtErr with
        | some m => m
        | none => if e.data.cancelInfo.canceled then "canceled by user request" else "")
    ∧ (done e evtErr customData false now freshId s).event.data.endTime = now
    ∧ (done e evtErr customData false now freshId s).event.data.endCustomData = customData
    ∧ (done e evtErr customData false now freshId s).event.data.running = false
    ∧ (done e evtErr customData false now freshId s).event.data.log = e.logBuffer
    ∧ (containsId s (EventId.objId freshId) = false →
        e.data.id ≠ EventId.objId freshId →
        (done e evtErr customData false now freshId s).event.data
            ∈ (done e evtErr customData false now freshId s).store
        ∧ (done e evtErr customData false now freshId s).result = Except.ok ()) := by
  rw [done_event_eq]
  refine ⟨?_, rfl, rfl, rfl, rfl, ?_⟩
  · show (doneData e evtErr customData now freshId).error = _
    unfold doneData
    cases evtErr with
    | none => simp [herr]
    | some m => rfl
  · intro hfresh hne
    have hdid : (doneData e evtErr customData now freshId).id = EventId.objId freshId := rfl
    have hin : insertRec s (doneData e evtErr customData now freshId)
        = some (s ++ [doneData e evtErr customData now freshId]) := by
      rw [insertRec_eq, hdid, hfresh]
      rfl
    have hD : done e evtErr customData false now freshId s =
        { states := [s ++ [doneData e evtErr customData now freshId],
            removeFirst (s ++ [doneData e evtErr customData now freshId]) e.data.id],
          result := Except.ok (),
          event := { e with data := doneData e evtErr customData now freshId },
          store := removeFirst (s ++ [doneData e evtErr customData now freshId]) e.data.id } := by
      unfold done
      simp [hin]
    rw [hD]
    constructor
    · show doneData e evtErr customData now freshId
        ∈ removeFirst (s ++ [doneData e evtErr customData now freshId]) e.data.id
      exact mem_removeFirst_of_ne
        (List.mem_append_right _ (List.mem_singleton.mpr rfl))
        (by rw [hdid]; exact fun h => hne h.symm)
    · rfl

/-- Fixture: the `runA` record after an acknowledged cancellation. -/
def cancelRunA : EventData :=
  { runA with
    cancelInfo := { owner := "admin", startTime := 20, ackTime := 30,
                    reason := "halt", asked := true, canceled := true } }

/-- Fixture: its live handle, with a non-empty in-memory log buffer. -/
def cancelHandleA : Event := { data := cancelRunA, logBuffer := "step 1\n" }

theorem C7_done_terminal_fields_witness :
    ((done cancelHandleA none (some "out") false 40 7 [cancelRunA]).event.data.error
        = "canceled by user request")
    ∧ (done cancelHandleA none (some "out") false 40 7 [cancelRunA]).event.data.endTime = 40
    ∧ (done cancelHandleA none (some "out") false 40 7 [cancelRunA]).event.data.endCustomData
        = some "out"
    ∧ (done cancelHandleA none (some "out") false 40 7 [cancelRunA]).event.data.running = false
    ∧ (done cancelHandleA none (some "out") false 40 7 [cancelRunA]).event.data.log = "step 1\n"
    ∧ (done cancelHandleA none (some "out") false 40 7 [cancelRunA]).event.data
        ∈ (done cancelHandleA none (some "out") false 40 7 [cancelRunA]).store :=
  have h := C7_done_terminal_fields cancelHandleA none (some "out") 40 7 [cancelRunA] rfl
  ⟨h.1, h.2.1, h.2.2.1, h.2.2.2.1, h.2.2.2.2.1,
    (h.2.2.2.2.2 (by decide) (by decide)).1⟩

/-!  ## C3: reclamation of an expired lock inside `New`  -/

/-- C3: when the first insert of `New` hits a duplicate key and the existing
record is expired (`now > lockUpdateTime + expiry`), `New` terminates the
stale record through the projector with error message
"event expired, no update for Δ" — inserting a historical twin and removing
the active row — and retries the insert exactly once (two inserts in all),
which then succeeds; the only remaining record under the target id is the
fresh candidate. -/
theorem C3_expired_reclaim (o : Opts) (kd : String) (now : Time) (freshId : Nat)
    (s : Store) (b : Bool) (ex : EventData)
    (hv : o.target.IsValid = true) (hk : o.kind = some kd) (ho : o.owner ≠ "")
    (hex : findId s (EventId.target o.target) = some ex)
    (hexp : ex.lockUpdateTime + lockExpireTimeout < now)
    (hfresh : containsId s (EventId.objId freshId) = false)
    (huni : countId s (EventId.target o.target) ≤ 1) :
    (New (some o) now freshId s b).result
        = Except.ok { data := candidateData o kd now, logBuffer := "" }
    ∧ (New (some o) now freshId s b).inserts = 2
    ∧ doneData { data := ex, logBuffer := "" }
        (some (expiredMsg (now - ex.lockUpdateTime))) none now freshId
        ∈ (New (some o) now freshId s b).store
    ∧ (doneData { data := ex, logBuffer := "" }
        (some (expiredMsg (now - ex.lockUpdateTime))) none now freshId).error
        = expiredMsg (now - ex.lockUpdateTime)
    ∧ (doneData { data := ex, logBuffer := "" }
        (some (expiredMsg (now - ex.lockUpdateTime))) none now freshId).running = false
    ∧ (New (some o) now freshId s b).store.filter
        (fun q => decide (q.id = EventId.target o.target)) = [candidateData o kd now] := by
  set d := doneData { data := ex, logBuffer := "" }
    (some (expiredMsg (now - ex.lockUpdateTime))) none now freshId with hd
  have hdid : d.id = EventId.objId freshId := rfl
  have hexid : ex.id = EventId.target o.target := id_of_findId hex
  have hcid : (candidateData o kd now).id = EventId.target o.target := rfl
  have hin : insertRec s (candidateData o kd now) = none := by
    rw [insertRec_eq, hcid, containsId_of_findId hex]
    rfl
  have hinD : insertRec s d = some (s ++ [d]) := by
    rw [insertRec_eq, hdid, hfresh]
    rfl
  have hDone : Event.Done { data := ex, logBuffer := "" }
      (some (expiredMsg (now - ex.lockUpdateTime))) now freshId s =
      { states := [s ++ [d], removeFirst (s ++ [d]) (EventId.target o.target)],
        result := Except.ok (),
        event := { data := d, logBuffer := "" },
        store := removeFirst (s ++ [d]) (EventId.target o.target) } := by
    unfold Event.Done done
    rw [← hd]
    simp [hinD, hexid]
  have hceD : checkIsExpired s (EventId.target o.target) now freshId
      = { expired := true, store := removeFirst (s ++ [d]) (EventId.target o.target) } := by
    unfold checkIsExpired
    simp only [hex]
    rw [if_pos hexp, hDone]
  have hdne : d.id ≠ EventId.target o.target := by
    rw [hdid]
    exact fun h => EventId.noConfusion h
  have hcount2 : countId (removeFirst (s ++ [d]) (EventId.target o.target))
      (EventId.target o.target) = 0 := by
    rw [countId_removeFirst, countId_append, countId_singleton_ne hdne]
    omega
  have hin2 : insertRec (removeFirst (s ++ [d]) (EventId.target o.target))
      (candidateData o kd now)
      = some (removeFirst (s ++ [d]) (EventId.target o.target) ++ [candidateData o kd now]) := by
    rw [insertRec_eq, hcid, countId_eq_zero_iff.mp hcount2]
    rfl
  have hloop : newLoop (candidateData o kd now) now freshId 2 s EventError.duplicateKey
      = { result := Except.ok { data := candidateData o kd now, logBuffer := "" },
          store := removeFirst (s ++ [d]) (EventId.target o.target) ++ [candidateData o kd now],
          inserts := 2 } := by
    rw [newLoop]
    simp only [hin, hcid, hceD, if_neg Nat.one_ne_zero]
    rw [newLoop]
    simp only [hin2]
    simp
  have hds : d ∈ removeFirst (s ++ [d]) (EventId.target o.target) ++ [candidateData o kd now] :=
    List.mem_append_left _
      (mem_removeFirst_of_ne (List.mem_append_right _ (List.mem_singleton.mpr rfl)) hdne)
  have hfilter : (removeFirst (s ++ [d]) (EventId.target o.target)
        ++ [candidateData o kd now]).filter
        (fun q => decide (q.id = EventId.target o.target)) = [candidateData o kd now] := by
    rw [List.filter_append]
    have h0 : (removeFirst (s ++ [d]) (EventId.target o.target)).filter
        (fun q => decide (q.id = EventId.target o.target)) = [] := by
      apply List.filter_eq_nil_iff.mpr
      intro a ha
      exact (List.countP_eq_zero.mp hcount2) a ha
    rw [h0]
    simp [hcid]
  rw [New_valid_eq o kd now freshId s b hv hk ho]
  rw [show maxRetries + 1 = 2 from rfl, hloop]
  exact ⟨rfl, rfl, hds, rfl, rfl, hfilter⟩

theorem C3_expired_reclaim_witness :
    ((New (some optsA) 400 7 [runA] true).result
        = Except.ok { data := candidateData optsA "app.update" 400, logBuffer := "" })
    ∧ (New (some optsA) 400 7 [runA] true).inserts = 2
    ∧ doneData { data := runA, logBuffer := "" } (some (expiredMsg 390)) none 400 7
        ∈ (New (some optsA) 400 7 [runA] true).store
    ∧ (doneData { data := runA, logBuffer := "" } (some (expiredMsg 390)) none 400 7).error
        = expiredMsg 390 :=
  have h := C3_expired_reclaim optsA "app.update" 400 7 [runA] true runA
    (by decide) rfl (by decide) (by decide) (by decide) (by decide) (by decide)
  ⟨h.1, h.2.1, h.2.2.1, h.2.2.2.1⟩

/-!  ## C10: `TryCancel` replaces the whole cancelInfo sub-record  -/

/-- Erasing `cancelInfo` commutes with a `cancelInfo`-only update: the frame
of `updateFirst` on every other field. -/
theorem updateFirst_cancelInfo_frame (newInfo : CancelInfo) (p : EventData → Bool) :
    ∀ s : Store,
      (updateFirst s p (fun q => { q with cancelInfo := newInfo })).map
          (fun q => { q with cancelInfo := CancelInfo.zero })
        = s.map (fun q => { q with cancelInfo := CancelInfo.zero })
  | [] => rfl
  | a :: rest => by
      by_cases ha : p a
      · rw [updateFirst, if_pos ha]
        simp [List.map_cons]
      · rw [updateFirst, if_neg ha]
        simp only [List.map_cons]
        rw [updateFirst_cancelInfo_frame newInfo p rest]

/-- C10: every successful `TryCancel(reason, owner)` replaces the entire
`cancelInfo` sub-record with `{owner, reason, startTime = now, asked = true}`
(so `canceled` is reset to false and `ackTime` cleared, even if the event had
already been acknowledged), while every field outside `cancelInfo` — of the
reloaded handle record and of every store record — is unchanged. -/
theorem C10_tryCancel_replaces_cancelInfo (e : Event) (reason owner : String)
    (now : Time) (s : Store) (r : EventData)
    (hc : e.data.cancelable = true) (hr : e.data.running = true)
    (hfind : findId s e.data.id = some r) :
    (TryCancel e reason owner now s).result = Except.ok ()
    ∧ (TryCancel e reason owner now s).event.data.cancelInfo
        = { owner := owner, reason := reason, startTime := now,
            ackTime := 0, asked := true, canceled := false }
    ∧ (TryCancel e reason owner now s).event.data.id = r.id
    ∧ (TryCancel e reason owner now s).event.data.startTime = r.startTime
    ∧ (TryCancel e reason owner now s).event.data.endTime = r.endTime
    ∧ (TryCancel e reason owner now s).event.data.target = r.target
    ∧ (TryCancel e reason owner now s).event.data.startCustomData = r.startCustomData
    ∧ (TryCancel e reason owner now s).event.data.endCustomData = r.endCustomData
    ∧ (TryCancel e reason owner now s).event.data.kind = r.kind
    ∧ (TryCancel e reason owner now s).event.data.owner = r.owner
    ∧ (TryCancel e reason owner now s).event.data.cancelable = r.cancelable
    ∧ (TryCancel e reason owner now s).event.data.running = r.running
    ∧ (TryCancel e reason owner now s).event.data.lockUpdateTime = r.lockUpdateTime
    ∧ (TryCancel e reason owner now s).event.data.error = r.error
    ∧ (TryCancel e reason owner now s).event.data.log = r.log
    ∧ (TryCancel e reason owner now s).store.map
          (fun q => { q with cancelInfo := CancelInfo.zero })
        = s.map (fun q => { q with cancelInfo := CancelInfo.zero }) := by
  have hcond : (!e.data.cancelable || !e.data.running) = false := by
    rw [hc, hr]
    rfl
  have hT : TryCancel e reason owner now s =
      { result := Except.ok (),
        event := { e with data := { r with cancelInfo :=
          { owner := owner, reason := reason, startTime := now,
            ackTime := 0, asked := true, canceled := false } } },
        store := updateFirst s (fun q => decide (q.id = e.data.id))
          (fun q => { q with cancelInfo :=
            { owner := owner, reason := reason, startTime := now,
              ackTime := 0, asked := true, canceled := false } }) } := by
    unfold TryCancel
    rw [hcond]
    simp [hfind]
  rw [hT]
  refine ⟨rfl, rfl, rfl, rfl, rfl, rfl, rfl, rfl, rfl, rfl, rfl, rfl, rfl, rfl, rfl, ?_⟩
  exact updateFirst_cancelInfo_frame _ _ s

theorem C10_tryCancel_replaces_cancelInfo_witness :
    ((TryCancel cancelHandleA "stop" "admin2" 100 [cancelRunA]).result = Except.ok ())
    ∧ ((TryCancel cancelHandleA "stop" "admin2" 100 [cancelRunA]).event.data.cancelInfo
        = { owner := "admin2", reason := "stop", startTime := 100,
            ackTime := 0, asked := true, canceled := false })
    ∧ cancelRunA.cancelInfo.canceled = true
    ∧ cancelRunA.cancelInfo.ackTime = 30
    ∧ ((TryCancel cancelHandleA "stop" "admin2" 100 [cancelRunA]).store.map
          (fun q => { q with cancelInfo := CancelInfo.zero })
        = [cancelRunA].map (fun q => { q with cancelInfo := CancelInfo.zero })) :=
  have h := C10_tryCancel_replaces_cancelInfo cancelHandleA "stop" "admin2" 100
    [cancelRunA] cancelRunA rfl rfl (by decide)
  ⟨h.1, h.2.1, rfl, rfl, h.2.2.2.2.2.2.2.2.2.2.2.2.2.2.2⟩

/-!  ## C6: the cancel-ordering invariant over every reachable store state

The operations above are pure store transformers; to speak about "every
store-visible state" we close them under a small-step relation: a system
state is the wall clock, the store, the live handles (each mutated in
place by the operations, as the Go `*Event` is), and the updater flag.
Each step happens at a time `now` no earlier than the current clock. -/

structure SysState where
  clock : Time
  store : Store
  handles : List Event
  started : Bool
deriving DecidableEq

/-- A call to `New`, appending the returned handle on success. -/
def applyNew (σ : SysState) (opts : Option Opts) (now : Time) (freshId : Nat) : SysState :=
  let r := New opts now freshId σ.store σ.started
  { clock := now, store := r.store, started := r.started,
    handles := σ.handles ++ (match r.result with
      | Except.ok e => [e]
      | Except.error _ => []) }

/-- A call to `TryCancel` on the i-th live handle. -/
def applyTryCancel (σ : SysState) (i : Nat) (reason owner : String) (now : Time) : SysState :=
  match σ.handles[i]? with
  | none => { σ with clock := now }
  | some e =>
      let r := TryCancel e reason owner now σ.store
      { clock := now, store := r.store, handles := σ.handles.set i r.event,
        started := σ.started }

/-- A call to `AckCancel` on the i-th live handle. -/
def applyAckCancel (σ : SysState) (i : Nat) (now : Time) : SysState :=
  match σ.handles[i]? with
  | none => { σ with clock := now }
  | some e =>
      let r := AckCancel e now σ.store
      { clock := now, store := r.store, handles := σ.handles.set i r.event,
        started := σ.started }

/-- A call to `done` (`Done`/`DoneCustomData`/`Abort`) on the i-th handle. -/
def applyDone (σ : SysState) (i : Nat) (evtErr customData : Option String)
    (abort : Bool) (now : Time) (freshId : Nat) : SysState :=
  match σ.handles[i]? with
  | none => { σ with clock := now }
  | some e =>
      let r := done e evtErr customData abort now freshId σ.store
      { clock := now, store := r.store, handles := σ.handles.set i r.event,
        started := σ.started }

/-- One iteration of `lockUpdater.spin`: refresh `lockupdatetime` of the
record matched by the updater's id set (`coll.Update` touches one document). -/
def applyTick (σ : SysState) (ids : List EventId) (now : Time) : SysState :=
  { clock := now,
    store := updateFirst σ.store (fun r => ids.any fun i => decide (r.id = i))
      (fun r => { r with lockUpdateTime := now }),
    handles := σ.handles, started := σ.started }

/-- The small-step relation: any operation of the subsystem, at any time not
earlier than the clock. -/
inductive Step : SysState → SysState → Prop where
  | new : ∀ (σ : SysState) (opts : Option Opts) (now : Time) (freshId : Nat),
      σ.clock ≤ now → Step σ (applyNew σ opts now freshId)
  | tryCancel : ∀ (σ : SysState) (i : Nat) (reason owner : String) (now : Time),
      σ.clock ≤ now → Step σ (applyTryCancel σ i reason owner now)
  | ackCancel : ∀ (σ : SysState) (i : Nat) (now : Time),
      σ.clock ≤ now → Step σ (applyAckCancel σ i now)
  | terminate : ∀ (σ : SysState) (i : Nat) (evtErr customData : Option String)
      (abort : Bool) (now : Time) (freshId : Nat),
      σ.clock ≤ now → Step σ (applyDone σ i evtErr customData abort now freshId)
  | tick : ∀ (σ : SysState) (ids : List EventId) (now : Time),
      σ.clock ≤ now → Step σ (applyTick σ ids now)

/-- The empty initial system. -/
def initState : SysState := { clock := 0, store := [], handles := [], started := false }

def Reachable (σ : SysState) : Prop := Relation.ReflTransGen Step initState σ

/-- Invariant I5 on one `cancelInfo`. -/
def cancelOk (c : CancelInfo) : Prop :=
  c.canceled = true → (c.asked = true ∧ c.startTime ≤ c.ackTime)

/-- The inductive strengthening: I5 together with "the cancel request is not
from the future". -/
def cancelQ (t : Time) (c : CancelInfo) : Prop := cancelOk c ∧ c.startTime ≤ t

/-- Every store record and every live handle satisfies `cancelQ clock`. -/
def SysInv (σ : SysState) : Prop :=
  (∀ r ∈ σ.store, cancelQ σ.clock r.cancelInfo)
  ∧ (∀ e ∈ σ.handles, cancelQ σ.clock e.data.cancelInfo)

theorem cancelQ_mono {t t' : Time} {c : CancelInfo} (h : t ≤ t') (hq : cancelQ t c) :
    cancelQ t' c :=
  ⟨hq.1, le_trans hq.2 h⟩

theorem cancelQ_zero (t : Time) : cancelQ t CancelInfo.zero :=
  ⟨fun h => absurd h (by decide), Nat.zero_le t⟩

theorem insertRec_some {s s' : Store} {r : EventData} (h : insertRec s r = some s') :
    s' = s ++ [r] := by
  unfold insertRec at h
  by_cases hc : s.any fun q => decide (q.id = r.id)
  · rw [if_pos hc] at h
    cases h
  · rw [if_neg hc] at h
    injection h with h
    exact h.symm

/-- The function `doneData` never touches `cancelInfo`. -/
theorem doneData_cancelInfo (e : Event) (evtErr customData : Option String)
    (now : Time) (freshId : Nat) :
    (doneData e evtErr customData now freshId).cancelInfo = e.data.cancelInfo := rfl

/-- The projector `done` only ever writes records whose `cancelInfo` is the handle's. -/
theorem done_store_pred (P : CancelInfo → Prop) (e : Event)
    (evtErr customData : Option String) (abort : Bool) (now : Time) (freshId : Nat)
    (s : Store) (hs : ∀ r ∈ s, P r.cancelInfo) (he : P e.data.cancelInfo) :
    ∀ r ∈ (done e evtErr customData abort now freshId s).store, P r.cancelInfo := by
  unfold done
  by_cases hab : abort = true
  · rw [if_pos hab]
    intro r hr
    exact hs r (mem_of_mem_removeFirst hr)
  · rw [if_neg hab]
    cases hins : insertRec s (doneData e evtErr customData now freshId) with
    | some s1 =>
        simp only [hins]
        intro r hr
        have hr1 : r ∈ s1 := mem_of_mem_removeFirst hr
        rw [insertRec_some hins] at hr1
        rcases List.mem_append.mp hr1 with hr1 | hr1
        · exact hs r hr1
        · rw [List.mem_singleton.mp hr1]
          exact he
    | none =>
        simp only [hins]
        intro r hr
        exact hs r (mem_of_mem_removeFirst hr)

/-- The handle returned by `done` keeps its `cancelInfo`. -/
theorem done_event_cancelInfo_eq (e : Event) (evtErr customData : Option String)
    (abort : Bool) (now : Time) (freshId : Nat) (s : Store) :
    (done e evtErr customData abort now freshId s).event.data.cancelInfo
      = e.data.cancelInfo := by
  unfold done
  by_cases hab : abort = true
  · rw [if_pos hab]
  · rw [if_neg hab]
    cases hins : insertRec s (doneData e evtErr customData now freshId) <;>
      simp [hins, doneData_cancelInfo]

theorem checkIsExpired_store_pred (P : CancelInfo → Prop) (s : Store) (i : EventId)
    (now : Time) (freshId : Nat) (hs : ∀ r ∈ s, P r.cancelInfo) :
    ∀ r ∈ (checkIsExpired s i now freshId).store, P r.cancelInfo := by
  unfold checkIsExpired
  cases hf : findId s i with
  | none => exact hs
  | some ex =>
      simp only
      by_cases hexp : ex.lockUpdateTime + lockExpireTimeout < now
      · rw [if_pos hexp]
        intro r hr
        exact done_store_pred P _ _ _ _ _ _ _ hs (hs ex (mem_of_findId hf)) r hr
      · rw [if_neg hexp]
        exact hs

theorem newLoop_store_pred (P : CancelInfo → Prop) (ev : EventData) (now : Time)
    (freshId : Nat) (hev : P ev.cancelInfo) (k : Nat) :
    ∀ (s : Store) (err : EventError), (∀ r ∈ s, P r.cancelInfo) →
      ∀ r ∈ (newLoop ev now freshId k s err).store, P r.cancelInfo := by
  induction k with
  | zero =>
      intro s err hs
      simpa [newLoop] using hs
  | succ k ih =>
      intro s err hs
      rw [newLoop]
      cases hins : insertRec s ev with
      | some s' =>
          simp only
          intro r hr
          have hr' : r ∈ s' := hr
          rw [insertRec_some hins] at hr'
          rcases List.mem_append.mp hr' with hr' | hr'
          · exact hs r hr'
          · rw [List.mem_singleton.mp hr']
            exact hev
      | none =>
          simp only
          by_cases hk : k = 0
          · rw [if_pos hk]
            intro r hr
            exact ih s _ hs r hr
          · rw [if_neg hk]
            by_cases hexp : (checkIsExpired s ev.id now freshId).expired
            · rw [if_pos hexp]
              intro r hr
              exact ih _ err (checkIsExpired_store_pred P s ev.id now freshId hs) r hr
            · rw [if_neg hexp]
              intro r hr
              exact ih s _ hs r hr

theorem New_store_pred (P : CancelInfo → Prop) (opts : Option Opts) (now : Time)
    (freshId : Nat) (s : Store) (b : Bool)
    (hzero : P CancelInfo.zero) (hs : ∀ r ∈ s, P r.cancelInfo) :
    ∀ r ∈ (New opts now freshId s b).store, P r.cancelInfo := by
  cases opts with
  | none => exact hs
  | some o =>
      rw [New]
      by_cases hv : o.target.IsValid
      · simp only [if_pos hv]
        cases hk : o.kind with
        | none => exact hs
        | some kd =>
            by_cases ho : o.owner = ""
            · simp only [if_pos ho]
              exact hs
            · simp only [if_neg ho]
              intro r hr
              exact newLoop_store_pred P (candidateData o kd now) now freshId hzero
                (maxRetries + 1) s EventError.duplicateKey hs r hr
      · simp only [if_neg hv]
        exact hs

theorem newLoop_result_ok (ev : EventData) (now : Time) (freshId : Nat) (k : Nat) :
    ∀ (s : Store) (err : EventError) (e' : Event),
      (newLoop ev now freshId k s err).result = Except.ok e' →
      e' = { data := ev, logBuffer := "" } := by
  induction k with
  | zero =>
      intro s err e' h
      simp [newLoop] at h
  | succ k ih =>
      intro s err e' h
      rw [newLoop] at h
      cases hins : insertRec s ev with
      | some s' =>
          rw [hins] at h
          simp only at h
          injection h with h
          exact h.symm
      | none =>
          rw [hins] at h
          simp only at h
          by_cases hk : k = 0
          · rw [if_pos hk] at h
            exact ih s _ e' h
          · rw [if_neg hk] at h
            by_cases hexp : (checkIsExpired s ev.id now freshId).expired
            · rw [if_pos hexp] at h
              exact ih _ err e' h
            · rw [if_neg hexp] at h
              exact ih s _ e' h

/-- A successful `New` returns the candidate handle, whose `cancelInfo` is
the zero value. -/
theorem New_ok_handle (opts : Option Opts) (now : Time) (freshId : Nat) (s : Store)
    (b : Bool) (e' : Event) (h : (New opts now freshId s b).result = Except.ok e') :
    e'.data.cancelInfo = CancelInfo.zero := by
  cases opts with
  | none => exact absurd h (by simp [New])
  | some o =>
      rw [New] at h
      by_cases hv : o.target.IsValid
      · rw [if_pos hv] at h
        cases hk : o.kind with
        | none =>
            rw [hk] at h
            exact absurd h (by simp)
        | some kd =>
            rw [hk] at h
            simp only at h
            by_cases ho : o.owner = ""
            · rw [if_pos ho] at h
              exact absurd h (by simp)
            · rw [if_neg ho] at h
              have := newLoop_result_ok (candidateData o kd now) now freshId
                (maxRetries + 1) s EventError.duplicateKey e' h
              rw [this]
              rfl
      · rw [if_neg hv] at h
        exact absurd h (by simp)

theorem tryCancel_store_pred (P : CancelInfo → Prop) (e : Event) (reason owner : String)
    (now : Time) (s : Store) (hs : ∀ r ∈ s, P r.cancelInfo)
    (hnew : P { owner := owner, reason := reason, startTime := now,
                ackTime := 0, asked := true, canceled := false }) :
    ∀ r ∈ (TryCancel e reason owner now s).store, P r.cancelInfo := by
  unfold TryCancel
  by_cases hcond : (!e.data.cancelable || !e.data.running) = true
  · rw [if_pos hcond]
    exact hs
  · rw [if_neg hcond]
    cases hf : findId s e.data.id with
    | none =>
        simp only [hf]
        exact hs
    | some r0 =>
        simp only [hf]
        intro r hr
        rcases mem_updateFirst hr with h1 | ⟨q, hq, hpq, rfl⟩
        · exact hs r h1
        · exact hnew

theorem tryCancel_event_pred (P : CancelInfo → Prop) (e : Event) (reason owner : String)
    (now : Time) (s : Store) (he : P e.data.cancelInfo)
    (hnew : P { owner := owner, reason := reason, startTime := now,
                ackTime := 0, asked := true, canceled := false }) :
    P (TryCancel e reason owner now s).event.data.cancelInfo := by
  unfold TryCancel
  by_cases hcond : (!e.data.cancelable || !e.data.running) = true
  · rw [if_pos hcond]
    exact he
  · rw [if_neg hcond]
    cases hf : findId s e.data.id with
    | none =>
        simp only [hf]
        exact he
    | some r0 =>
        simp only [hf]
        exact hnew

theorem ackCancel_store_pred (P : CancelInfo → Prop) (e : Event) (now : Time) (s : Store)
    (hs : ∀ r ∈ s, P r.cancelInfo)
    (hupd : ∀ q ∈ s, ackSelector e q = true → P (ackSet now q).cancelInfo) :
    ∀ r ∈ (AckCancel e now s).store, P r.cancelInfo := by
  unfold AckCancel
  by_cases hcond : (!e.data.cancelable || !e.data.running) = true
  · rw [if_pos hcond]
    exact hs
  · rw [if_neg hcond]
    cases hf : s.find? (ackSelector e) with
    | none =>
        simp only [hf]
        exact hs
    | some r0 =>
        simp only [hf]
        intro r hr
        rcases mem_updateFirst hr with h1 | ⟨q, hq, hpq, rfl⟩
        · exact hs r h1
        · exact hupd q hq hpq

theorem ackCancel_event_pred (P : CancelInfo → Prop) (e : Event) (now : Time) (s : Store)
    (he : P e.data.cancelInfo)
    (hupd : ∀ q ∈ s, ackSelector e q = true → P (ackSet now q).cancelInfo) :
    P (AckCancel e now s).event.data.cancelInfo := by
  unfold AckCancel
  by_cases hcond : (!e.data.cancelable || !e.data.running) = true
  · rw [if_pos hcond]
    exact he
  · rw [if_neg hcond]
    cases hf : s.find? (ackSelector e) with
    | none =>
        simp only [hf]
        exact he
    | some r0 =>
        simp only [hf]
        exact hupd r0 (List.mem_of_find?_eq_some hf) (List.find?_some hf)

theorem step_preserves_inv {σ σ' : SysState} (h : Step σ σ') (hI : SysInv σ) :
    SysInv σ' := by
  obtain ⟨hstore, hhand⟩ := hI
  cases h with
  | new opts now freshId hc =>
      refine ⟨?_, ?_⟩
      · intro r hr
        exact New_store_pred (cancelQ now) opts now freshId σ.store σ.started
          (cancelQ_zero now) (fun q hq => cancelQ_mono hc (hstore q hq)) r hr
      · intro e he
        have he' : e ∈ σ.handles ++
            (match (New opts now freshId σ.store σ.started).result with
              | Except.ok e0 => [e0]
              | Except.error _ => []) := he
        rcases List.mem_append.mp he' with h1 | h1
        · exact cancelQ_mono hc (hhand e h1)
        · cases hres : (New opts now freshId σ.store σ.started).result with
          | ok e0 =>
              rw [hres] at h1
              rw [List.mem_singleton.mp h1]
              have hz := New_ok_handle opts now freshId σ.store σ.started e0 hres
              have : cancelQ now e0.data.cancelInfo := by
                rw [hz]
                exact cancelQ_zero now
              exact this
          | error _ =>
              rw [hres] at h1
              simp at h1
  | tryCancel i reason owner now hc =>
      unfold applyTryCancel
      cases hgi : σ.handles[i]? with
      | none =>
          simp only [hgi]
          exact ⟨fun r hr => cancelQ_mono hc (hstore r hr),
                 fun e he => cancelQ_mono hc (hhand e he)⟩
      | some e =>
          simp only [hgi]
          have hnew : cancelQ now
              { owner := owner, reason := reason, startTime := now,
                ackTime := 0, asked := true, canceled := false } :=
            ⟨fun hcc => absurd hcc Bool.false_ne_true, le_refl now⟩
          refine ⟨?_, ?_⟩
          · intro r hr
            exact tryCancel_store_pred (cancelQ now) e reason owner now σ.store
              (fun q hq => cancelQ_mono hc (hstore q hq)) hnew r hr
          · intro e' he'
            rcases List.mem_or_eq_of_mem_set he' with h1 | rfl
            · exact cancelQ_mono hc (hhand e' h1)
            · exact tryCancel_event_pred (cancelQ now) e reason owner now σ.store
                (cancelQ_mono hc (hhand e (List.getElem?_mem hgi))) hnew
  | ackCancel i now hc =>
      unfold applyAckCancel
      cases hgi : σ.handles[i]? with
      | none =>
          simp only [hgi]
          exact ⟨fun r hr => cancelQ_mono hc (hstore r hr),
                 fun e he => cancelQ_mono hc (hhand e he)⟩
      | some e =>
          simp only [hgi]
          have hupd : ∀ q ∈ σ.store, ackSelector e q = true →
              cancelQ now (ackSet now q).cancelInfo := by
            intro q hq hsel
            unfold ackSelector at hsel
            rw [Bool.and_eq_true] at hsel
            have hqQ := hstore q hq
            exact ⟨fun _ => ⟨hsel.2, le_trans hqQ.2 hc⟩, le_trans hqQ.2 hc⟩
          refine ⟨?_, ?_⟩
          · intro r hr
            exact ackCancel_store_pred (cancelQ now) e now σ.store
              (fun q hq => cancelQ_mono hc (hstore q hq)) hupd r hr
          · intro e' he'
            rcases List.mem_or_eq_of_mem_set he' with h1 | rfl
            · exact cancelQ_mono hc (hhand e' h1)
            · exact ackCancel_event_pred (cancelQ now) e now σ.store
                (cancelQ_mono hc (hhand e (List.getElem?_mem hgi))) hupd
  | terminate i evtErr customData abort now freshId hc =>
      unfold applyDone
      cases hgi : σ.handles[i]? with
      | none =>
          simp only [hgi]
          exact ⟨fun r hr => cancelQ_mono hc (hstore r hr),
                 fun e he => cancelQ_mono hc (hhand e he)⟩
      | some e =>
          simp only [hgi]
          refine ⟨?_, ?_⟩
          · intro r hr
            exact done_store_pred (cancelQ now) e evtErr customData abort now freshId
              σ.store (fun q hq => cancelQ_mono hc (hstore q hq))
              (cancelQ_mono hc (hhand e (List.getElem?_mem hgi))) r hr
          · intro e' he'
            rcases List.mem_or_eq_of_mem_set he' with h1 | rfl
            · exact cancelQ_mono hc (hhand e' h1)
            · have hd := done_event_cancelInfo_eq e evtErr customData abort now freshId σ.store
              have : cancelQ now
                  (done e evtErr customData abort now freshId σ.store).event.data.cancelInfo := by
                rw [hd]
                exact cancelQ_mono hc (hhand e (List.getElem?_mem hgi))
              exact this
  | tick ids now hc =>
      refine ⟨?_, ?_⟩
      · intro r hr
        have hr' : r ∈ updateFirst σ.store
            (fun q => ids.any fun i => decide (q.id = i))
            (fun q => { q with lockUpdateTime := now }) := hr
        rcases mem_updateFirst hr' with h1 | ⟨q, hq, hpq, rfl⟩
        · exact cancelQ_mono hc (hstore r h1)
        · exact cancelQ_mono hc (hstore q hq)
      · intro e he
        exact cancelQ_mono hc (hhand e he)

theorem reachable_inv (σ : SysState) (h : Reachable σ) : SysInv σ := by
  induction h with
  | refl =>
      exact ⟨fun r hr => absurd hr (List.not_mem_nil r),
             fun e he => absurd he (List.not_mem_nil e)⟩
  | tail hab hbc ih => exact step_preserves_inv hbc ih

/-- C6: at every store-visible state of every reachable execution, a record
with `canceled = true` also has `asked = true` and
`ackTime ≥ cancelInfo.startTime` (invariant I5); and `AckCancel` only
updates a record matched by the selector `{id = target, cancelinfo.asked =
true}` — when no record matches, it returns `ErrEventNotFound` and leaves
the store unchanged, so `canceled` can only become true while `asked` is. -/
theorem C6_cancel_ordering :
    (∀ σ : SysState, Reachable σ → ∀ r ∈ σ.store,
        r.cancelInfo.canceled = true →
          r.cancelInfo.asked = true ∧ r.cancelInfo.startTime ≤ r.cancelInfo.ackTime)
    ∧ (∀ (e : Event) (now : Time) (s : Store),
        e.data.cancelable = true → e.data.running = true →
        s.find? (ackSelector e) = none →
        (AckCancel e now s).result = Except.error EventError.eventNotFound
        ∧ (AckCancel e now s).store = s) := by
  constructor
  · intro σ hσ r hr hcc
    exact ((reachable_inv σ hσ).1 r hr).1 hcc
  · intro e now s hc hr hfind
    have hcond : (!e.data.cancelable || !e.data.running) = false := by
      rw [hc, hr]
      rfl
    unfold AckCancel
    rw [hcond]
    simp [hfind]

/-- Fixture: the system after `New optsA` at time 10 (fresh id 99). -/
def sysState1 : SysState := applyNew initState (some optsA) 10 99

/-- Fixture: then `TryCancel "halt" "admin"` at time 20 on the handle. -/
def sysState2 : SysState := applyTryCancel sysState1 0 "halt" "admin" 20

/-- Fixture: then `AckCancel` at time 30. -/
def sysState3 : SysState := applyAckCancel sysState2 0 30

/-- Fixture: the acknowledged record stored in `sysState3`. -/
def ackedRunA : EventData :=
  { runA with
    cancelInfo := { owner := "admin", startTime := 20, ackTime := 30,
                    reason := "halt", asked := true, canceled := true } }

theorem C6_cancel_ordering_witness :
    (ackedRunA.cancelInfo.asked = true
      ∧ ackedRunA.cancelInfo.startTime ≤ ackedRunA.cancelInfo.ackTime)
    ∧ ((AckCancel handleA 5 []).result = Except.error EventError.eventNotFound
      ∧ (AckCancel handleA 5 []).store = []) :=
  have hreach : Reachable sysState3 :=
    Relation.ReflTransGen.tail
      (Relation.ReflTransGen.tail
        (Relation.ReflTransGen.tail Relation.ReflTransGen.refl
          (Step.new initState (some optsA) 10 99 (by decide)))
        (Step.tryCancel sysState1 0 "halt" "admin" 20 (by decide)))
      (Step.ackCancel sysState2 0 30 (by decide))
  ⟨C6_cancel_ordering.1 sysState3 hreach ackedRunA (by decide) (by decide),
    C6_cancel_ordering.2 handleA 5 [] rfl rfl rfl⟩
